import Mathlib

/-!
Verification development for the `viuer` terminal image printer.

The Rust sources are embedded shallowly: machine integers (`u16`, `u32`) become
`Nat` with an explicit `% 2^16` / `% 2^32` wherever the Rust computation can
truncate or wrap (casts `as u16`, `u32` multiplication, `u32` subtraction in
release mode), `i16` becomes `Int`, fallible operations return `Except`, and
the terminal-input loops are folds over a finite scripted list of key events
(the repository's own `ReadKey`/`TestKeys` seam).  Live terminal dimensions,
which the Rust code obtains from `utils::terminal_size()`, are passed as
explicit `termW`/`termH` parameters.
-/

/-- Key events delivered by the `console` crate's `read_key`, restricted to the
constructors the probe loops in `printer/kitty.rs`, `printer/iterm.rs` and
`printer/sixel_util.rs` inspect: plain characters, unknown escape sequences
(carrying their trailing characters) and the `Unknown` (not-a-tty) key. -/
inductive RKey where
  | char (c : Char)
  | unknownEscSeq (cs : List Char)
  | unknown
deriving DecidableEq

/-- `KittySupport` from `printer/kitty.rs` (constructors `None`, `Local`,
`Remote`; renamed `noSupport`/`localFile`/`remote` for Lean). -/
inductive KittySupport where
  | noSupport
  | localFile
  | remote
deriving DecidableEq

/-- The four printer back-ends named by the specification's dispatcher. -/
inductive PrinterKind where
  | block
  | kitty
  | iterm
  | sixel
deriving DecidableEq

/-- The `std::io::ErrorKind` values distinguished by `printer/block.rs`:
`BrokenPipe` is treated specially, every other kind is opaque here. -/
inductive IOKind where
  | brokenPipe
  | notFound
  | unexpectedEof
  | otherKind
deriving DecidableEq

/-- `ViuError` from `src/error.rs` (payloads reduced to what the claims
inspect: the message of an invalid configuration, the captured key list of a
Kitty response, the kind of an I/O error). -/
inductive ViuErr where
  | image
  | io (k : IOKind)
  | crossterm
  | invalidConfiguration (msg : String)
  | tempfile
  | kittyResponse (keys : List RKey)
  | kittyNotSupported
  | sixelError
deriving DecidableEq

/-- `Config` from `src/config.rs`.  `x : u16` becomes `Nat`, `y : i16` becomes
`Int`; the optional width/height are `u32` values. -/
structure Config where
  resize : Bool
  transparent : Bool
  absolute_offset : Bool
  x : Nat
  y : Int
  restore_cursor : Bool
  width : Option Nat
  height : Option Nat
  truecolor : Bool
  use_kitty : Bool
  kitty_delete : Bool
deriving DecidableEq

/-- Terminal-control writes the block printer issues, abstracted to the level
the claims observe: cursor motions, newlines, and row flushes to stdout. -/
inductive TermCmd where
  | moveTo (x y : Nat)
  | moveToPreviousLine (n : Nat)
  | newline
  | moveRight (n : Nat)
  | rowFlush
  | finalFlush
deriving DecidableEq

/-- `fit_dimensions` from `src/utils.rs:51-67` (an identical copy lives in
`src/printer/mod.rs:110-126`).  All four parameters are `u32`; the two
cross-products and the scaling products are `u32` multiplications, hence the
explicit `% 2^32`. -/
def fit_dimensions (width height bound_width bound_height : Nat) : Nat × Nat :=
  let ratio := width * bound_height % 4294967296
  let nratio := bound_width * height % 4294967296
  let intermediate :=
    if nratio ≤ ratio then height * bound_width % 4294967296 / width
    else width * bound_height % 4294967296 / height
  if nratio ≤ ratio then (bound_width, intermediate) else (intermediate, bound_height)

/-- `find_best_fit` from `src/printer/mod.rs:65-106`.  The image dimensions
are `u32`, the result components are produced by `as u16` casts (`% 2^16`);
in the `(None, None)` branch the Rust code computes `h / 2 - 1` in `u32`,
which wraps on underflow in release mode, hence `+ (2^32 - 1)` followed by
`% 2^32`.  The live terminal size queried via `utils::terminal_size()` is
passed in as `termW`/`termH` (both `u16`). -/
def find_best_fit (imgW imgH : Nat) (width height : Option Nat)
    (termW termH : Nat) : Nat × Nat :=
  match width, height with
  | none, none =>
      let p := fit_dimensions imgW imgH termW (2 * termH)
      (p.1 % 65536, (p.2 / 2 + 4294967295) % 4294967296 % 65536)
  | some w, none =>
      let p := fit_dimensions imgW imgH w (2 * imgH % 4294967296)
      (p.1 % 65536, p.2 / 2 % 65536)
  | none, some h =>
      let p := fit_dimensions imgW imgH imgW (2 * h % 4294967296)
      (p.1 % 65536, p.2 / 2 % 65536)
  | some w, some h => (w % 65536, h % 65536)

/-- Modelled from the spec: the `(None, None)` behaviour of `find_best_fit`
as the specification describes it — "fit inside the live terminal size;
reserve one row (subtract 1 from usable rows) [before fitting] ...; if the
computed height equals the full terminal height, decrement it."  Used only to
compare the specification's words with the source's `find_best_fit`. -/
def find_best_fit_spec_none (imgW imgH termW termH : Nat) : Nat × Nat :=
  let p := fit_dimensions imgW imgH termW (2 * (termH - 1))
  let cellH := p.2 / 2
  (p.1, if cellH = termH then cellH - 1 else cellH)

/-- The backend selection performed by the public entry point `print` in
`src/lib.rs:55-65`: both branches of the `config.resize` test invoke
`printer::BlockPrinter::print`, so the Block printer is used for every
configuration. -/
def print_dispatch (_config : Config) : PrinterKind :=
  PrinterKind.block

/-- Modelled from the spec: the dispatcher the specification describes
("if Sixel is enabled and Supported, use Sixel; else if iTerm is enabled and
Supported, use iTerm; else if Kitty is enabled and not Unsupported, use Kitty;
else use Block").  No such dispatcher exists in the sources; this definition
follows the specification's words only, for comparison with
`print_dispatch`. -/
def dispatch_spec (sixelEnabled sixelSupported itermEnabled itermSupported
    kittyEnabled : Bool) (kitty : KittySupport) : PrinterKind :=
  if sixelEnabled && sixelSupported then PrinterKind.sixel
  else if itermEnabled && itermSupported then PrinterKind.iterm
  else if kittyEnabled && !(decide (kitty = KittySupport.noSupport)) then PrinterKind.kitty
  else PrinterKind.block

/-- The loop state of `BlockPrinter::print` in `src/printer/block.rs:64-134`:
`top` is the `Mode::Top`/`Mode::Bottom` flag, `col` is `curr_col_px`, `row` is
`curr_row_px`, `buf` is `row_buffer.len()`, and `flushed` counts the
`print_buffer` calls made inside the pixel loop (one per completed pair of
pixel rows). -/
structure BlockSt where
  top : Bool
  col : Nat
  row : Nat
  buf : Nat
  flushed : Nat
deriving DecidableEq

/-- One iteration of the pixel loop of `BlockPrinter::print`
(`src/printer/block.rs:77-134`): in `Top` mode a `ColorSpec` is pushed onto
`row_buffer`, in `Bottom` mode an existing one is upgraded; `curr_col_px` is
incremented; when the buffer is full the mode flips (top row finished) or,
once the second row is also complete, the row is flushed to stdout and the
buffer cleared. -/
def block_step (width : Nat) (s : BlockSt) : BlockSt :=
  let buf := if s.top then s.buf + 1 else s.buf
  let col := s.col + 1
  if buf = width then
    if s.top then ⟨false, 0, s.row + 1, buf, s.flushed⟩
    else if col = width then ⟨true, 0, s.row + 1, 0, s.flushed + 1⟩
    else ⟨s.top, col, s.row, buf, s.flushed⟩
  else ⟨s.top, col, s.row, buf, s.flushed⟩

/-- Iterating `block_step` over `n` pixels (the pixel loop visits the resized
image's `width * height` pixels in row-major order). -/
def block_run (width : Nat) : Nat → BlockSt → BlockSt
  | 0, s => s
  | n + 1, s => block_run width n (block_step width s)

/-- The y-offset adjustment at the start of `BlockPrinter::print`
(`src/printer/block.rs:32-53`): in absolute mode a non-negative `y` moves the
cursor to `(0, y)` and a negative `y` is an invalid-configuration error; in
relative mode a negative `y` moves to the previous lines and a non-negative
`y` writes `y` literal newlines.  All commands go into the in-memory
`out_buffer`, not yet to stdout. -/
def block_adjust (config : Config) : Except ViuErr (List TermCmd) :=
  if config.absolute_offset then
    if 0 ≤ config.y then Except.ok [TermCmd.moveTo 0 config.y.toNat]
    else Except.error (ViuErr.invalidConfiguration
      "absolute_offset is true but y offset is negative")
  else if config.y < 0 then Except.ok [TermCmd.moveToPreviousLine (-config.y).toNat]
  else Except.ok (List.replicate config.y.toNat TermCmd.newline)

/-- The printed-cell-size result of `BlockPrinter::print`
(`src/printer/block.rs:145`): `Ok((width, curr_row_px / 2))` after the pixel
loop has processed the whole `imgW × imgH` resized image. -/
def block_print_result (imgW imgH : Nat) : Nat × Nat :=
  (imgW, (block_run imgW (imgW * imgH) ⟨true, 0, 0, 0, 0⟩).row / 2)

/-- `BlockPrinter::print` from `src/printer/block.rs:22-146`, at the level of
what reaches the stdout sink and what is returned: the y-offset adjustment
happens first (an invalid configuration aborts before anything has been
flushed to stdout), then the pixel loop flushes one `rowFlush` per completed
cell row, and a `finalFlush` (which also prints a trailing odd row, if any)
precedes the `Ok((width, curr_row_px / 2))` return.  The first component is
the full list of writes that reached the stdout sink. -/
def block_print (config : Config) (imgW imgH : Nat) :
    List TermCmd × Except ViuErr (Nat × Nat) :=
  match block_adjust config with
  | Except.error e => ([], Except.error e)
  | Except.ok pre =>
      let final := block_run imgW (imgW * imgH) ⟨true, 0, 0, 0, 0⟩
      (pre ++ List.replicate final.flushed TermCmd.rowFlush ++ [TermCmd.finalFlush],
       Except.ok (imgW, final.row / 2))

/-- The printed-cell-size result of `print_to_writecolor` in
`src/printer/block/mod.rs:178`: `Ok((width, height / 2 + height % 2))`. -/
def print_to_writecolor_result (imgW imgH : Nat) : Nat × Nat :=
  (imgW, imgH / 2 + imgH % 2)

/-- `print_buffer` from `src/printer/block.rs:150-163`, parameterised by the
outcome of `stdout.print(out_buffer)`: success and broken-pipe failures both
yield `Ok(())`, every other I/O failure is propagated as `ViuError::IO`. -/
def print_buffer (flush : Except IOKind Unit) : Except ViuErr Unit :=
  match flush with
  | Except.ok _ => Except.ok ()
  | Except.error e =>
      match e with
      | IOKind.brokenPipe => Except.ok ()
      | _ => Except.error (ViuErr.io e)

/-- The standard base64 alphabet used by `base64::engine::general_purpose::STANDARD`. -/
def base64_alphabet : List Char :=
  "ABCDEFGHIJKLMNOPQRSTUVWXYZabcdefghijklmnopqrstuvwxyz0123456789+/".toList

/-- The character the standard base64 alphabet assigns to a 6-bit value. -/
def b64_char (n : Nat) : Char := base64_alphabet.getD n 'A'

/-- Standard base64 encoding with `=` padding of a byte sequence, as performed
by `general_purpose::STANDARD.encode` on the raw RGBA buffer in
`print_remote` (`src/printer/kitty.rs:321`). -/
def base64_encode : List Nat → List Char
  | [] => []
  | [a] => [b64_char (a / 4), b64_char (a % 4 * 16), '=', '=']
  | [a, b] => [b64_char (a / 4), b64_char (a % 4 * 16 + b / 16), b64_char (b % 16 * 4), '=']
  | a :: b :: c :: rest =>
      b64_char (a / 4) :: b64_char (a % 4 * 16 + b / 16) ::
        b64_char (b % 16 * 4 + c / 64) :: b64_char (c % 64) :: base64_encode rest

/-- The chunking loop of `print_remote` (`src/printer/kitty.rs:347-351`):
repeatedly take up to 4096 characters of the remaining base64 payload and
pair the chunk with its continuation flag `m` — `1` if more data follows the
chunk, `0` otherwise.  The loop consumes at least one character per
iteration, so fuel equal to the payload length is enough; `kitty_chunk_pairs`
below supplies it. -/
def chunk_loop : Nat → List Char → List (Nat × List Char)
  | _, [] => []
  | 0, _ :: _ => []
  | fuel + 1, x :: xs =>
      let rest := (x :: xs).drop 4096
      (if rest = [] then 0 else 1, (x :: xs).take 4096) :: chunk_loop fuel rest

/-- The continuation chunks emitted by `print_remote` after the first chunk:
`chunk_loop` applied to the payload with sufficient fuel. -/
def kitty_chunk_pairs (s : List Char) : List (Nat × List Char) :=
  chunk_loop s.length s

/-- The escape sequences written by `print_remote`
(`src/printer/kitty.rs:313-354`): the first chunk carries the image header
`f=32,a=T,t=d,s=<w>,v=<h>,c=<cells_w>,r=<cells_h>,m=1`, each following chunk
is `ESC _G m=<flag>;<chunk> ESC \`.  The cell dimensions `w`/`h` computed by
`find_best_fit` upstream are taken as parameters. -/
def kitty_remote_escapes (raw : List Nat) (imgW imgH w h : Nat) : List String :=
  let encoded := base64_encode raw
  ("\x1b_Gf=32,a=T,t=d,s=" ++ toString imgW ++ ",v=" ++ toString imgH ++
      ",c=" ++ toString w ++ ",r=" ++ toString h ++ ",m=1;" ++
      String.mk (encoded.take 4096) ++ "\x1b\\")
    :: (kitty_chunk_pairs (encoded.drop 4096)).map
        (fun p => "\x1b_Gm=" ++ toString p.1 ++ ";" ++ String.mk p.2 ++ "\x1b\\")

/-- The continuation flags in emission order, including the first chunk's
hard-coded `m=1` (`src/printer/kitty.rs:338`). -/
def kitty_remote_flags (raw : List Nat) : List Nat :=
  1 :: (kitty_chunk_pairs ((base64_encode raw).drop 4096)).map Prod.fst

/-- Break test of the read loop in `has_local_support`
(`src/printer/kitty.rs:229-238`) and of the loop commented alongside it:
stop on the string terminator `ESC \` or on the `Unknown` (not-a-tty) key. -/
def brk_kitty_st : RKey → Bool
  | RKey.unknownEscSeq cs => decide (cs = ['\\'])
  | RKey.unknown => true
  | _ => false

/-- Break test of the read loops in `wait_for_dsr`
(`src/printer/kitty.rs:121-130`) and in the two iTerm probes
(`src/printer/iterm.rs:118-126` and `175-183`): stop on the Device Status
Report reply `ESC [0n` or on the `Unknown` key. -/
def brk_dsr : RKey → Bool
  | RKey.unknownEscSeq cs => decide (cs = ['[', '0', 'n'])
  | RKey.unknown => true
  | _ => false

/-- The common shape of the stateless probe read loops: read the scripted
keys one by one, pushing each onto the response, and stop after the first key
whose break test holds (or when the script is exhausted, which is when the
`read_key` call of the `TestKeys` source returns an error). -/
def capture_until (brk : RKey → Bool) : List RKey → List RKey
  | [] => []
  | k :: ks => k :: (if brk k then [] else capture_until brk ks)

/-- The response captured by the read loop of `has_local_support`
(`src/printer/kitty.rs:229-238`). -/
def kitty_local_capture : List RKey → List RKey :=
  capture_until brk_kitty_st

/-- The response captured by the read loops of `wait_for_dsr` and of the two
iTerm capability probes (`has_iterm_support_capabilities` and
`has_iterm_support_reportcellsize`), which share the same break test. -/
def dsr_capture : List RKey → List RKey :=
  capture_until brk_dsr

/-- The `had_pda` update of `has_remote_support`
(`src/printer/kitty.rs:161-165`): the flag latches once a key is an unknown
escape sequence starting with `['[', '?']` (the primary-device-attributes
reply intro). -/
def pda_upd (s : Bool) (k : RKey) : Bool :=
  s || (match k with
        | RKey.unknownEscSeq cs => decide (cs.take 2 = ['[', '?'])
        | _ => false)

/-- Break test of the read loop in `has_remote_support`
(`src/printer/kitty.rs:157-177`), evaluated after the `had_pda` update:
stop on a `c` character once the primary-device-attributes intro has been
seen, or on the `Unknown` key. -/
def brk_remote (s : Bool) (k : RKey) : Bool :=
  (pda_upd s k && decide (k = RKey.char 'c')) || decide (k = RKey.unknown)

/-- The response captured by the read loop of `has_remote_support`,
threading the `had_pda` flag. -/
def kitty_remote_capture (s : Bool) : List RKey → List RKey
  | [] => []
  | k :: ks => k :: (if brk_remote s k then [] else kitty_remote_capture (pda_upd s k) ks)

/-- Modelled from the spec's description of the remote probe's stopping rule:
the index of the first key of the script at which the loop's break condition
fires, given the running `had_pda` state (the script's length if none). -/
def remote_stop_idx (s : Bool) : List RKey → Nat
  | [] => 0
  | k :: ks => if brk_remote s k then 0 else remote_stop_idx (pda_upd s k) ks + 1

/-- Break test of the read loop in `check_device_attrs`
(`src/printer/sixel_util.rs:23-35`): the loop ends at an `Unknown` key
(without recording it) or right after recording a `'c'` character. -/
def brk_sixel : RKey → Bool
  | RKey.unknown => true
  | RKey.char c => decide (c = 'c')
  | _ => false

/-- The character, if any, that `check_device_attrs` records for a key. -/
def char_of : RKey → Option Char
  | RKey.char c => some c
  | _ => none

/-- The response string accumulated by the read loop of `check_device_attrs`
(`src/printer/sixel_util.rs:23-35`): `Unknown` stops the loop immediately,
a character is recorded and stops the loop if it is `'c'`, any other key is
skipped. -/
def sixel_capture : List RKey → List Char
  | [] => []
  | k :: ks =>
      match k with
      | RKey.unknown => []
      | RKey.char c => if c = 'c' then [c] else c :: sixel_capture ks
      | _ => sixel_capture ks

/-- The expected Kitty graphics-query reply checked by `has_local_support`
(`src/printer/kitty.rs:243-254`): the keys of `ESC _ G i = 3 1 ; O K ESC \`. -/
def expected_kitty : List RKey :=
  [RKey.unknownEscSeq ['_'], RKey.char 'G', RKey.char 'i', RKey.char '=',
   RKey.char '3', RKey.char '1', RKey.char ';', RKey.char 'O', RKey.char 'K',
   RKey.unknownEscSeq ['\\']]

/-- `has_local_support` from `src/printer/kitty.rs:207-263`, restricted to
its observable classification of the scripted key sequence: capture the
response, then accept exactly when `response.len() >= expected.len()` and
`response[..expected.len()] == expected`; otherwise return
`ViuError::KittyResponse` carrying the full captured response.  (The query
writes and the temp-file bookkeeping around the loop do not influence the
classification.) -/
def has_local_support (keys : List RKey) : Except ViuErr Unit :=
  let response := kitty_local_capture keys
  if expected_kitty.length ≤ response.length ∧
      response.take expected_kitty.length = expected_kitty then
    Except.ok ()
  else
    Except.error (ViuErr.kittyResponse response)

/-- C1 (counterexample): with Sixel and iTerm disabled, Kitty enabled and the
Kitty capability at `LocalFile`, the specification's dispatcher selects the
Kitty printer, but the entry point `print` of `src/lib.rs` uses the Block
printer for this (and every) configuration. -/
theorem print_dispatch_ignores_kitty_cex :
    dispatch_spec false false false false true KittySupport.localFile = PrinterKind.kitty
    ∧ print_dispatch ⟨true, false, true, 0, 0, false, none, none, true, true, false⟩ =
        PrinterKind.block
    ∧ PrinterKind.block ≠ PrinterKind.kitty := by
  exact ⟨rfl, rfl, by decide⟩

/-- C1 (amended): the public entry point `print` performs no backend
dispatch at all — for every configuration it uses the Block printer (after
optionally resizing when `config.resize` is set). -/
theorem print_dispatch_always_block (config : Config) :
    print_dispatch config = PrinterKind.block := rfl

/-- C3 (amended): `find_best_fit` with both width and height supplied
returns them verbatim through `as u16` casts, so it returns exactly `(w, h)`
for every image and every pair of cell counts representable in `u16`
(`w, h < 2^16`), regardless of the source image's aspect ratio. -/
theorem find_best_fit_exact_fit (imgW imgH w h termW termH : Nat)
    (hw : w < 65536) (hh : h < 65536) :
    find_best_fit imgW imgH (some w) (some h) termW termH = (w, h) := by
  simp [find_best_fit, Nat.mod_eq_of_lt hw, Nat.mod_eq_of_lt hh]

/-- C3 (witness): at image 2×2, `w = 40`, `h = 60`, the exact-fit branch
returns `(40, 60)`. -/
theorem find_best_fit_exact_fit_witness :
    40 < 65536 ∧ 60 < 65536 ∧ find_best_fit 2 2 (some 40) (some 60) 80 24 = (40, 60) :=
  ⟨by decide, by decide, find_best_fit_exact_fit 2 2 40 60 80 24 (by decide) (by decide)⟩

/-- C3 (counterexample): the `as u16` casts truncate, so for the `u32` cell
count `w = 65536` the exact-fit branch returns `(0, 1)`, not `(65536, 1)` as
the claim states for all cell counts. -/
theorem find_best_fit_exact_truncation_cex :
    find_best_fit 2 2 (some 65536) (some 1) 80 24 = (0, 1)
    ∧ ((0 : Nat), (1 : Nat)) ≠ ((65536 : Nat), (1 : Nat)) := by
  exact ⟨by decide, by decide⟩

/-- C4: in absolute-offset mode a negative `y` makes `BlockPrinter::print`
return the invalid-configuration error before anything has been flushed to
the stdout sink: the sink trace is empty. -/
theorem block_print_negative_absolute_y_errors (config : Config) (imgW imgH : Nat)
    (habs : config.absolute_offset = true) (hy : config.y < 0) :
    block_print config imgW imgH =
      ([], Except.error (ViuErr.invalidConfiguration
        "absolute_offset is true but y offset is negative")) := by
  have h0 : ¬ (0 ≤ config.y) := by omega
  simp [block_print, block_adjust, habs, h0]

/-- C4 (witness): the spec's own scenario — absolute offset with `y = -1` on
a 5×4 image returns the invalid-configuration error with an empty sink. -/
theorem block_print_negative_absolute_y_errors_witness :
    (⟨true, false, true, 0, -1, false, none, none, true, true, false⟩ : Config).absolute_offset = true
    ∧ (⟨true, false, true, 0, -1, false, none, none, true, true, false⟩ : Config).y < 0
    ∧ block_print ⟨true, false, true, 0, -1, false, none, none, true, true, false⟩ 5 4 =
        ([], Except.error (ViuErr.invalidConfiguration
          "absolute_offset is true but y offset is negative")) :=
  ⟨rfl, by decide,
    block_print_negative_absolute_y_errors _ 5 4 rfl (by decide)⟩

/-- C9: `print_buffer` swallows a broken-pipe failure of the stdout flush,
returning exactly what a successful flush returns, and propagates every other
I/O failure as a `ViuError::IO`. -/
theorem print_buffer_broken_pipe :
    print_buffer (Except.error IOKind.brokenPipe) = print_buffer (Except.ok ())
    ∧ print_buffer (Except.error IOKind.brokenPipe) = Except.ok ()
    ∧ ∀ k : IOKind, k ≠ IOKind.brokenPipe →
        print_buffer (Except.error k) = Except.error (ViuErr.io k) := by
  refine ⟨rfl, rfl, ?_⟩
  intro k hk
  cases k
  · exact absurd rfl hk
  all_goals rfl

/-- C9 (witness): a not-found failure of the flush is propagated as an I/O
error. -/
theorem print_buffer_broken_pipe_witness :
    IOKind.notFound ≠ IOKind.brokenPipe
    ∧ print_buffer (Except.error IOKind.notFound) = Except.error (ViuErr.io IOKind.notFound) :=
  ⟨by decide, print_buffer_broken_pipe.2.2 IOKind.notFound (by decide)⟩

/-- Helper: when the two cross-products fit in `u32`, `fit_dimensions`
reduces to the pure branch on `bound_width * height ≤ width * bound_height`
with a single integer division on the non-binding axis. -/
theorem fit_dimensions_eq (w h bw bh : Nat)
    (hov1 : w * bh < 4294967296) (hov2 : bw * h < 4294967296) :
    fit_dimensions w h bw bh =
      if bw * h ≤ w * bh then (bw, bw * h / w) else (w * bh / h, bh) := by
  unfold fit_dimensions
  rw [Nat.mul_comm h bw]
  simp only [Nat.mod_eq_of_lt hov1, Nat.mod_eq_of_lt hov2]
  by_cases hc : bw * h ≤ w * bh
  · simp [hc]
  · simp [hc]

/-- C2 (amended): for positive inputs whose cross-products fit in `u32`, the
binding axis chosen by comparing `bound_width * height` with
`width * bound_height` is pinned exactly to its bound and the other axis is
the floor of the exactly proportional value (so the returned ratio differs
from `w : h` only by integer-division rounding, and never exceeds the bound);
the claim's additional "both values are at least 1" guarantee does not hold
of this `fit_dimensions` (see the counterexample). -/
theorem fit_dimensions_pins_binding_axis (w h bw bh : Nat)
    (hw : 0 < w) (hh : 0 < h)
    (hov1 : w * bh < 4294967296) (hov2 : bw * h < 4294967296) :
    (bw * h ≤ w * bh →
        fit_dimensions w h bw bh = (bw, bw * h / w)
        ∧ w * (bw * h / w) ≤ bw * h
        ∧ bw * h < w * (bw * h / w + 1)
        ∧ bw * h / w ≤ bh)
    ∧ (w * bh < bw * h →
        fit_dimensions w h bw bh = (w * bh / h, bh)
        ∧ h * (w * bh / h) ≤ w * bh
        ∧ w * bh < h * (w * bh / h + 1)
        ∧ w * bh / h ≤ bw) := by
  rw [fit_dimensions_eq w h bw bh hov1 hov2]
  constructor
  · intro hle
    refine ⟨if_pos hle, ?_, ?_, ?_⟩
    · rw [Nat.mul_comm]; exact Nat.div_mul_le_self (bw * h) w
    · have := (Nat.div_lt_iff_lt_mul hw).1 (Nat.lt_succ_self (bw * h / w))
      calc bw * h < (bw * h / w + 1) * w := this
        _ = w * (bw * h / w + 1) := Nat.mul_comm _ _
    · calc bw * h / w ≤ w * bh / w := Nat.div_le_div_right hle
        _ = bh := Nat.mul_div_cancel_left bh hw
  · intro hlt
    refine ⟨if_neg (by omega), ?_, ?_, ?_⟩
    · rw [Nat.mul_comm]; exact Nat.div_mul_le_self (w * bh) h
    · have := (Nat.div_lt_iff_lt_mul hh).1 (Nat.lt_succ_self (w * bh / h))
      calc w * bh < (w * bh / h + 1) * h := this
        _ = h * (w * bh / h + 1) := Nat.mul_comm _ _
    · have : w * bh < bw * h := hlt
      have hdiv : w * bh / h < bw := (Nat.div_lt_iff_lt_mul hh).2 (by
        calc w * bh < bw * h := this
          _ = bw * h := rfl)
      omega

/-- C2 (witness): at `(240, 160)` against bounds `(30, 100)` the width is the
binding axis; the result is `(30, 20)` with the rounding bounds satisfied. -/
theorem fit_dimensions_pins_binding_axis_witness :
    fit_dimensions 240 160 30 100 = (30, 30 * 160 / 240)
    ∧ 240 * (30 * 160 / 240) ≤ 30 * 160
    ∧ 30 * 160 < 240 * (30 * 160 / 240 + 1)
    ∧ 30 * 160 / 240 ≤ 100 :=
  (fit_dimensions_pins_binding_axis 240 160 30 100 (by decide) (by decide)
    (by decide) (by decide)).1 (by decide)

/-- C2 (counterexample): all four inputs positive, yet
`fit_dimensions(1, 100, 10, 10) = (0, 10)` — the returned width is 0, so the
claim's "both returned values are at least 1" is false of this code. -/
theorem fit_dimensions_zero_width_cex :
    fit_dimensions 1 100 10 10 = (0, 10)
    ∧ ¬ (1 ≤ (fit_dimensions 1 100 10 10).1) := by
  exact ⟨by decide, by decide⟩

/-- C8 (amended): in the `(None, None)` branch `find_best_fit` fits the image
inside `(term_w, 2 * term_h)` pixels and then always subtracts one from the
computed cell height — the row is reserved unconditionally (after fitting),
not only when the computed height equals the full terminal height.  The two
regimes cover every input (for `u16` terminal sizes, positive image
dimensions and cross-products in `u32` range): whenever the fitted pixel
height is at least 2 the printed height is the fitted cell height minus one,
strictly below the terminal height; when the fitted cell height `h / 2` is
already 0 (a sufficiently wide image), the `u32` subtraction `h / 2 - 1`
underflows and wraps, and the code returns 65535 cell rows. -/
theorem find_best_fit_none_reserves_row (imgW imgH termW termH : Nat)
    (hW : 0 < imgW) (hH : 0 < imgH)
    (htW : termW < 65536) (htH : termH < 65536)
    (hov1 : imgW * (2 * termH) < 4294967296) (hov2 : termW * imgH < 4294967296) :
    (2 ≤ (fit_dimensions imgW imgH termW (2 * termH)).2 →
      find_best_fit imgW imgH none none termW termH =
        ((fit_dimensions imgW imgH termW (2 * termH)).1,
         (fit_dimensions imgW imgH termW (2 * termH)).2 / 2 - 1)
      ∧ (fit_dimensions imgW imgH termW (2 * termH)).2 / 2 - 1 < termH)
    ∧ ((fit_dimensions imgW imgH termW (2 * termH)).2 / 2 = 0 →
      find_best_fit imgW imgH none none termW termH =
        ((fit_dimensions imgW imgH termW (2 * termH)).1, 65535)) := by
  have heq := fit_dimensions_eq imgW imgH termW (2 * termH) hov1 hov2
  have hp1 : (fit_dimensions imgW imgH termW (2 * termH)).1 < 65536 := by
    rw [heq]
    by_cases hle : termW * imgH ≤ imgW * (2 * termH)
    · rw [if_pos hle]; exact htW
    · rw [if_neg hle]
      have hlt : imgW * (2 * termH) < termW * imgH := by omega
      have : imgW * (2 * termH) / imgH < termW := (Nat.div_lt_iff_lt_mul hH).2 hlt
      omega
  have hp2 : (fit_dimensions imgW imgH termW (2 * termH)).2 ≤ 2 * termH := by
    rw [heq]
    by_cases hle : termW * imgH ≤ imgW * (2 * termH)
    · rw [if_pos hle]
      calc termW * imgH / imgW ≤ imgW * (2 * termH) / imgW := Nat.div_le_div_right hle
        _ = 2 * termH := Nat.mul_div_cancel_left _ hW
    · rw [if_neg hle]
  constructor
  · intro hfit
    have hx1 : 1 ≤ (fit_dimensions imgW imgH termW (2 * termH)).2 / 2 := by omega
    have hx2 : (fit_dimensions imgW imgH termW (2 * termH)).2 / 2 ≤ termH := by omega
    constructor
    · show ((fit_dimensions imgW imgH termW (2 * termH)).1 % 65536,
        ((fit_dimensions imgW imgH termW (2 * termH)).2 / 2 + 4294967295) % 4294967296 % 65536) = _
      rw [Prod.mk.injEq]
      constructor
      · omega
      · omega
    · omega
  · intro h0
    show ((fit_dimensions imgW imgH termW (2 * termH)).1 % 65536,
      ((fit_dimensions imgW imgH termW (2 * termH)).2 / 2 + 4294967295) % 4294967296 % 65536) = _
    rw [Prod.mk.injEq]
    constructor
    · omega
    · rw [h0]

/-- C8 (witness): a 160×80 image in an 80×24 terminal hits the normal regime
— the fit is `(80, 40)` pixels and the returned cell height is
`40 / 2 - 1 = 19 < 24` (the value the repository's own test asserts) — while
a 500×10 image hits the underflow regime: the fitted pixel height is 1, the
`u32` subtraction wraps and the code returns `(80, 65535)`. -/
theorem find_best_fit_none_reserves_row_witness :
    (find_best_fit 160 80 none none 80 24 =
        ((fit_dimensions 160 80 80 (2 * 24)).1, (fit_dimensions 160 80 80 (2 * 24)).2 / 2 - 1)
      ∧ (fit_dimensions 160 80 80 (2 * 24)).2 / 2 - 1 < 24)
    ∧ find_best_fit 500 10 none none 80 24 = ((fit_dimensions 500 10 80 (2 * 24)).1, 65535) :=
  ⟨(find_best_fit_none_reserves_row 160 80 80 24 (by decide) (by decide) (by decide)
      (by decide) (by decide) (by decide)).1 (by decide),
   (find_best_fit_none_reserves_row 500 10 80 24 (by decide) (by decide) (by decide)
      (by decide) (by decide) (by decide)).2 (by decide)⟩

/-- C8 (counterexample): for a 160×80 image in an 80×24 terminal the code
returns `(80, 19)` (one row always subtracted after fitting) while the
claim's rule — reserve the row before fitting and decrement only when the
computed height equals the full terminal height — yields `(80, 20)`. -/
theorem find_best_fit_none_reserve_cex :
    find_best_fit 160 80 none none 80 24 = (80, 19)
    ∧ find_best_fit_spec_none 160 80 80 24 = (80, 20)
    ∧ find_best_fit 160 80 none none 80 24 ≠ find_best_fit_spec_none 160 80 80 24 := by
  exact ⟨by decide, by decide, by decide⟩

/-- Helper: the `response.len() >= expected.len() && response[..expected.len()] == expected`
check of `has_local_support` is exactly a prefix test. -/
theorem prefix_check_iff (E l : List RKey) :
    (E.length ≤ l.length ∧ l.take E.length = E) ↔ E <+: l := by
  constructor
  · rintro ⟨h1, h2⟩
    refine ⟨l.drop E.length, ?_⟩
    have h3 := List.take_append_drop E.length l
    rw [h2] at h3
    exact h3
  · rintro ⟨t, rfl⟩
    refine ⟨by simp, ?_⟩
    simp

/-- C6 (amended): `has_local_support` classifies the terminal as supporting
Kitty local-file printing exactly when the captured response *begins with*
the full expected reply `ESC_ G i = 3 1 ; O K <ST>` (a prefix check of the
whole ten-key token sequence, not a suffix check of the final `O K <ST>`);
every other captured response yields an error carrying the full captured key
sequence. -/
theorem has_local_support_characterization (keys : List RKey) :
    has_local_support keys =
      if expected_kitty <+: kitty_local_capture keys then Except.ok ()
      else Except.error (ViuErr.kittyResponse (kitty_local_capture keys)) := by
  show (if expected_kitty.length ≤ (kitty_local_capture keys).length ∧
      (kitty_local_capture keys).take expected_kitty.length = expected_kitty then
      Except.ok () else Except.error (ViuErr.kittyResponse (kitty_local_capture keys))) = _
  by_cases h : expected_kitty <+: kitty_local_capture keys
  · rw [if_pos ((prefix_check_iff _ _).2 h), if_pos h]
  · rw [if_neg (fun hc => h ((prefix_check_iff _ _).1 hc)), if_neg h]

/-- C6 (counterexample): the scripted input `O, K, <ST>` is captured in full,
so the captured response terminates in `O, K, <ST>`, yet `has_local_support`
classifies it as unsupported (the check demands the whole ten-key reply as a
prefix), returning the error with the full captured sequence. -/
theorem has_local_support_suffix_cex :
    kitty_local_capture [RKey.char 'O', RKey.char 'K', RKey.unknownEscSeq ['\\']] =
      [RKey.char 'O', RKey.char 'K', RKey.unknownEscSeq ['\\']]
    ∧ has_local_support [RKey.char 'O', RKey.char 'K', RKey.unknownEscSeq ['\\']] =
        Except.error (ViuErr.kittyResponse
          [RKey.char 'O', RKey.char 'K', RKey.unknownEscSeq ['\\']])
    ∧ has_local_support [RKey.char 'O', RKey.char 'K', RKey.unknownEscSeq ['\\']] ≠
        Except.ok () := by
  refine ⟨rfl, rfl, fun h => ?_⟩
  exact Except.noConfusion h

/-- Helper: a stateless probe read loop captures exactly the script up to and
including the first key whose break test holds (the whole script when none
does — `findIdx` returns the length in that case). -/
theorem capture_until_take (brk : RKey → Bool) (keys : List RKey) :
    capture_until brk keys = keys.take (keys.findIdx brk + 1) := by
  induction keys with
  | nil => rfl
  | cons k ks ih =>
      by_cases h : brk k
      · simp [capture_until, h, List.findIdx_cons]
      · simp [capture_until, h, List.findIdx_cons, ih]

/-- Helper: the `has_remote_support` loop, which threads the `had_pda` flag,
captures exactly the script up to and including the first position where its
(state-dependent) break condition fires. -/
theorem kitty_remote_capture_take (s : Bool) (keys : List RKey) :
    kitty_remote_capture s keys = keys.take (remote_stop_idx s keys + 1) := by
  induction keys generalizing s with
  | nil => rfl
  | cons k ks ih =>
      by_cases h : brk_remote s k
      · simp [kitty_remote_capture, remote_stop_idx, h]
      · simp [kitty_remote_capture, remote_stop_idx, h, ih]

/-- Helper: the `check_device_attrs` loop records exactly the characters of
the script up to and including the first stopping key (`Unknown`, which is
not itself recorded, or the character `c`, which is). -/
theorem sixel_capture_eq (keys : List RKey) :
    sixel_capture keys = (keys.take (keys.findIdx brk_sixel + 1)).filterMap char_of := by
  induction keys with
  | nil => rfl
  | cons k ks ih =>
      cases k with
      | unknown => simp [sixel_capture, List.findIdx_cons, brk_sixel, char_of]
      | char c =>
          by_cases hc : c = 'c'
          · subst hc
            simp [sixel_capture, List.findIdx_cons, brk_sixel, char_of]
          · simp [sixel_capture, hc, List.findIdx_cons, brk_sixel, char_of, ih]
      | unknownEscSeq cs =>
          simp [sixel_capture, List.findIdx_cons, brk_sixel, char_of, ih]

/-- C7: every capability-probe read loop (Kitty remote with its `had_pda`
state, Kitty local, the iTerm capabilities and cell-size loops together with
`wait_for_dsr`, and the Sixel device-attributes loop) is a total function of
the finite scripted key sequence, consumes exactly the keys up to and
including the first recognized stopping key (terminator or `Unknown`) — never
continuing past it — and stops at the end of the script when the key source
errors out first; in particular each captured response is a `take` of the
script and no longer than it. -/
theorem probe_read_loops_stop (s : Bool) (keys : List RKey) :
    kitty_remote_capture s keys = keys.take (remote_stop_idx s keys + 1)
    ∧ kitty_local_capture keys = keys.take (keys.findIdx brk_kitty_st + 1)
    ∧ dsr_capture keys = keys.take (keys.findIdx brk_dsr + 1)
    ∧ sixel_capture keys = (keys.take (keys.findIdx brk_sixel + 1)).filterMap char_of
    ∧ (kitty_remote_capture s keys).length ≤ keys.length
    ∧ (kitty_local_capture keys).length ≤ keys.length
    ∧ (dsr_capture keys).length ≤ keys.length
    ∧ (sixel_capture keys).length ≤ keys.length := by
  refine ⟨kitty_remote_capture_take s keys, capture_until_take _ keys,
    capture_until_take _ keys, sixel_capture_eq keys, ?_, ?_, ?_, ?_⟩
  · rw [kitty_remote_capture_take]
    simp [List.length_take]
  · show (capture_until brk_kitty_st keys).length ≤ keys.length
    rw [capture_until_take]
    simp [List.length_take]
  · show (capture_until brk_dsr keys).length ≤ keys.length
    rw [capture_until_take]
    simp [List.length_take]
  · rw [sixel_capture_eq]
    calc ((keys.take (keys.findIdx brk_sixel + 1)).filterMap char_of).length
        ≤ (keys.take (keys.findIdx brk_sixel + 1)).length := List.length_filterMap_le _ _
      _ ≤ keys.length := by simp [List.length_take]

/-- Helper: iterating the pixel loop one more step applies `block_step` to
the result of the previous iterations. -/
theorem block_run_succ_outer (W n : Nat) (s : BlockSt) :
    block_run W (n + 1) s = block_step W (block_run W n s) := by
  induction n generalizing s with
  | zero => rfl
  | succ n ih =>
      show block_run W (n + 1) (block_step W s) = _
      rw [ih (block_step W s)]
      rfl

/-- Helper: the pixel loop splits over sums of pixel counts. -/
theorem block_run_add (W m n : Nat) (s : BlockSt) :
    block_run W (m + n) s = block_run W n (block_run W m s) := by
  induction m generalizing s with
  | zero => rw [Nat.zero_add]; rfl
  | succ m ih =>
      rw [Nat.succ_add]
      exact ih (block_step W s)

/-- Helper: a pixel of the top row (buffer not yet full) pushes a color and
advances the column. -/
theorem block_step_top (W c r b f : Nat) (h : b + 1 < W) :
    block_step W ⟨true, c, r, b, f⟩ = ⟨true, c + 1, r, b + 1, f⟩ := by
  simp [block_step, Nat.ne_of_lt h]

/-- Helper: a pixel of the bottom row (column not yet at the end) upgrades a
color and advances the column. -/
theorem block_step_bot (W c r f : Nat) (h : c + 1 < W) :
    block_step W ⟨false, c, r, W, f⟩ = ⟨false, c + 1, r, W, f⟩ := by
  simp [block_step, Nat.ne_of_lt h]

/-- Helper: the first `i` pixels of a top row leave the mode unchanged. -/
theorem block_run_top_partial (W r f : Nat) :
    ∀ i, i < W → block_run W i ⟨true, 0, r, 0, f⟩ = ⟨true, i, r, i, f⟩ := by
  intro i
  induction i with
  | zero => intro _; rfl
  | succ i ih =>
      intro h
      rw [block_run_succ_outer, ih (Nat.lt_of_succ_lt h), block_step_top W i r i f h]

/-- Helper: a full top row of `W` pixels flips the mode to bottom,
incrementing `curr_row_px`. -/
theorem block_run_top_row (W r f : Nat) (hW : 0 < W) :
    block_run W W ⟨true, 0, r, 0, f⟩ = ⟨false, 0, r + 1, W, f⟩ := by
  obtain ⟨V, rfl⟩ : ∃ V, W = V + 1 := ⟨W - 1, by omega⟩
  rw [block_run_succ_outer, block_run_top_partial (V + 1) r f V (by omega)]
  simp [block_step]

/-- Helper: the first `i` pixels of a bottom row leave the buffer full and
the mode unchanged. -/
theorem block_run_bot_partial (W r f : Nat) :
    ∀ i, i < W → block_run W i ⟨false, 0, r, W, f⟩ = ⟨false, i, r, W, f⟩ := by
  intro i
  induction i with
  | zero => intro _; rfl
  | succ i ih =>
      intro h
      rw [block_run_succ_outer, ih (Nat.lt_of_succ_lt h), block_step_bot W i r f h]

/-- Helper: a full bottom row of `W` pixels flushes the cell row to stdout,
incrementing `curr_row_px` and the flush count and clearing the buffer. -/
theorem block_run_bot_row (W r f : Nat) (hW : 0 < W) :
    block_run W W ⟨false, 0, r, W, f⟩ = ⟨true, 0, r + 1, 0, f + 1⟩ := by
  obtain ⟨V, rfl⟩ : ∃ V, W = V + 1 := ⟨W - 1, by omega⟩
  rw [block_run_succ_outer, block_run_bot_partial (V + 1) r f V (by omega)]
  simp [block_step]

/-- Helper: two full pixel rows advance `curr_row_px` by two and flush once. -/
theorem block_run_two_rows (W r f : Nat) (hW : 0 < W) :
    block_run W (2 * W) ⟨true, 0, r, 0, f⟩ = ⟨true, 0, r + 2, 0, f + 1⟩ := by
  have h2 : 2 * W = W + W := by omega
  rw [h2, block_run_add, block_run_top_row W r f hW, block_run_bot_row W (r + 1) f hW]

/-- Helper: `m` pairs of pixel rows advance `curr_row_px` to `2 * m`. -/
theorem block_run_rows (W : Nat) (hW : 0 < W) :
    ∀ m, block_run W (m * (2 * W)) ⟨true, 0, 0, 0, 0⟩ = ⟨true, 0, 2 * m, 0, m⟩ := by
  intro m
  induction m with
  | zero => rw [Nat.zero_mul]; rfl
  | succ m ih =>
      have h : (m + 1) * (2 * W) = m * (2 * W) + 2 * W := by ring
      rw [h, block_run_add, ih, block_run_two_rows W (2 * m) m hW]
      have h2 : 2 * m + 2 = 2 * (m + 1) := by omega
      rw [h2]

/-- Helper: after the pixel loop has processed the whole `W × H` image,
`curr_row_px` equals the pixel height `H`. -/
theorem block_row_count (W H : Nat) (hW : 0 < W) :
    (block_run W (W * H) ⟨true, 0, 0, 0, 0⟩).row = H := by
  rcases Nat.even_or_odd H with he | ho
  · obtain ⟨m, rfl⟩ := he
    have hWH : W * (m + m) = m * (2 * W) := by ring
    rw [hWH, block_run_rows W hW m]
    show 2 * m = m + m
    omega
  · obtain ⟨m, rfl⟩ := ho
    have hWH : W * (2 * m + 1) = m * (2 * W) + W := by ring
    rw [hWH, block_run_add, block_run_rows W hW m,
      block_run_top_row W (2 * m) m hW]

/-- C10 (amended): on the same resized `W × H` pixel grid the two block
implementations agree exactly when the pixel height is even:
`BlockPrinter::print` reports `(W, ⌊H/2⌋)` cell rows while
`print_to_writecolor` reports `(W, ⌊H/2⌋ + H mod 2)` — for odd heights (where
both print the final upper-half row) the former under-counts it by one, so
the two `PrintResult` pairs differ. -/
theorem block_printers_result_relation (W H : Nat) (hW : 0 < W) :
    block_print_result W H = (W, H / 2)
    ∧ print_to_writecolor_result W H = (W, H / 2 + H % 2)
    ∧ (H % 2 = 0 → block_print_result W H = print_to_writecolor_result W H) := by
  have hrow := block_row_count W H hW
  refine ⟨?_, rfl, ?_⟩
  · unfold block_print_result
    rw [hrow]
  · intro h0
    unfold block_print_result print_to_writecolor_result
    rw [hrow, h0]
    simp

/-- C10 (witness): on an even-height 5×4 grid both implementations report
`(5, 2)`. -/
theorem block_printers_result_relation_witness :
    block_print_result 5 4 = (5, 2)
    ∧ print_to_writecolor_result 5 4 = (5, 2)
    ∧ block_print_result 5 4 = print_to_writecolor_result 5 4 := by
  have h := block_printers_result_relation 5 4 (by decide)
  exact ⟨h.1, h.2.1, h.2.2 (by decide)⟩

/-- C10 (counterexample): on the spec's own odd-height scenario (a 4×3
image) `BlockPrinter::print` returns `(4, 1)` while `print_to_writecolor`
returns `(4, 2)` — the two `PrintResult` pairs are not equal. -/
theorem block_printers_odd_height_cex :
    block_print_result 4 3 = (4, 1)
    ∧ print_to_writecolor_result 4 3 = (4, 2)
    ∧ block_print_result 4 3 ≠ print_to_writecolor_result 4 3 := by
  exact ⟨by decide, by decide, by decide⟩

/-- Helper: the chunk loop on an empty payload emits nothing, for any fuel. -/
theorem chunk_loop_nil (fuel : Nat) : chunk_loop fuel [] = [] := by
  cases fuel <;> rfl

/-- Helper: every emitted chunk holds at most 4096 characters and carries a
continuation flag of 0 or 1. -/
theorem chunk_loop_sizes (fuel : Nat) :
    ∀ s : List Char,
      (chunk_loop fuel s).Forall (fun p => p.2.length ≤ 4096 ∧ (p.1 = 0 ∨ p.1 = 1)) := by
  induction fuel with
  | zero => intro s; cases s <;> simp [chunk_loop]
  | succ fuel ih =>
      intro s
      cases s with
      | nil => simp [chunk_loop]
      | cons x xs =>
          simp only [chunk_loop, List.forall_cons]
          refine ⟨⟨?_, ?_⟩, ih _⟩
          · simp [List.length_take]
          · split <;> simp

/-- Helper: with fuel at least the payload length, the emitted chunks
concatenate back to the payload. -/
theorem chunk_loop_join (fuel : Nat) :
    ∀ s : List Char, s.length ≤ fuel →
      ((chunk_loop fuel s).map Prod.snd).flatten = s := by
  induction fuel with
  | zero =>
      intro s hs
      have h0 : s = [] := List.eq_nil_of_length_eq_zero (by omega)
      subst h0
      rfl
  | succ fuel ih =>
      intro s hs
      cases s with
      | nil => rfl
      | cons x xs =>
          simp only [chunk_loop, List.map_cons, List.flatten_cons]
          rw [ih ((x :: xs).drop 4096) (by simp only [List.length_drop, List.length_cons] at hs ⊢; omega)]
          exact List.take_append_drop 4096 (x :: xs)

/-- Helper: with fuel at least the payload length, a nonempty payload
produces at least one chunk. -/
theorem chunk_loop_ne_nil (fuel : Nat) (s : List Char)
    (hs : s.length ≤ fuel) (hne : s ≠ []) : chunk_loop fuel s ≠ [] := by
  cases s with
  | nil => exact absurd rfl hne
  | cons x xs =>
      cases fuel with
      | zero => simp at hs
      | succ fuel => simp [chunk_loop]

/-- Helper: with fuel at least the payload length, the continuation flags of
the emitted chunks are `1` on every chunk except the last, which carries `0`
— i.e. `m = 1` exactly when more chunks follow. -/
theorem chunk_loop_flags (fuel : Nat) :
    ∀ s : List Char, s.length ≤ fuel →
      (chunk_loop fuel s).map Prod.fst =
        List.replicate ((chunk_loop fuel s).length - 1) 1 ++
          (if (chunk_loop fuel s).length = 0 then [] else [0]) := by
  induction fuel with
  | zero =>
      intro s hs
      have h0 : s = [] := List.eq_nil_of_length_eq_zero (by omega)
      subst h0
      rfl
  | succ fuel ih =>
      intro s hs
      cases s with
      | nil => simp [chunk_loop_nil]
      | cons x xs =>
          by_cases hr : (x :: xs).drop 4096 = []
          · simp [chunk_loop, hr, chunk_loop_nil]
          · have hlen : ((x :: xs).drop 4096).length ≤ fuel := by
              simp only [List.length_drop, List.length_cons] at hs ⊢
              omega
            have hcne := chunk_loop_ne_nil fuel _ hlen hr
            have hn : 1 ≤ (chunk_loop fuel ((x :: xs).drop 4096)).length :=
              List.length_pos.2 hcne
            simp only [chunk_loop, if_neg hr, List.map_cons, List.length_cons]
            rw [ih _ hlen]
            obtain ⟨n, hn'⟩ : ∃ n, (chunk_loop fuel ((x :: xs).drop 4096)).length = n + 1 :=
              ⟨(chunk_loop fuel ((x :: xs).drop 4096)).length - 1, by omega⟩
            rw [hn']
            simp [List.replicate_succ]

/-- C5 (amended): `print_remote` base64-encodes the raw RGBA buffer and emits
it in chunks of at most 4096 bytes: the first chunk always goes out as
`ESC _G f=32,a=T,t=d,s=<w>,v=<h>,c=<cells_w>,r=<cells_h>,m=1;<chunk> ESC \`,
each continuation chunk as `ESC _G m=<0|1>;<chunk> ESC \` where `m=1` means
more chunks follow and the last continuation chunk carries `m=0`; the chunks
reassemble the encoding exactly.  When the whole encoding fits in the first
4096-byte chunk there are no continuation chunks at all, so the single
emitted chunk carries `m=1` and no `m=0` chunk terminates the transmission
(see the counterexample). -/
theorem kitty_print_remote_chunks (raw : List Nat) (imgW imgH w h : Nat) :
    kitty_remote_escapes raw imgW imgH w h =
      ("\x1b_Gf=32,a=T,t=d,s=" ++ toString imgW ++ ",v=" ++ toString imgH ++
          ",c=" ++ toString w ++ ",r=" ++ toString h ++ ",m=1;" ++
          String.mk ((base64_encode raw).take 4096) ++ "\x1b\\")
        :: (kitty_chunk_pairs ((base64_encode raw).drop 4096)).map
            (fun p => "\x1b_Gm=" ++ toString p.1 ++ ";" ++ String.mk p.2 ++ "\x1b\\")
    ∧ ((base64_encode raw).take 4096).length ≤ 4096
    ∧ (kitty_chunk_pairs ((base64_encode raw).drop 4096)).Forall
        (fun p => p.2.length ≤ 4096 ∧ (p.1 = 0 ∨ p.1 = 1))
    ∧ ((kitty_chunk_pairs ((base64_encode raw).drop 4096)).map Prod.snd).flatten =
        (base64_encode raw).drop 4096
    ∧ (kitty_chunk_pairs ((base64_encode raw).drop 4096)).map Prod.fst =
        List.replicate ((kitty_chunk_pairs ((base64_encode raw).drop 4096)).length - 1) 1 ++
          (if (kitty_chunk_pairs ((base64_encode raw).drop 4096)).length = 0 then []
           else [0]) := by
  refine ⟨rfl, ?_, ?_, ?_, ?_⟩
  · simp [List.length_take]
  · exact chunk_loop_sizes _ _
  · exact chunk_loop_join _ _ le_rfl
  · exact chunk_loop_flags _ _ le_rfl

/-- C5 (counterexample): for the repository's own 1×2-pixel test image (raw
RGBA bytes `[0,0,0,0,2,4,6,8]`) the whole base64 encoding fits in one chunk;
`print_remote` emits exactly one escape sequence — the test-asserted string
with `m=1` — and no chunk carrying `m=0` is ever emitted, contradicting "the
final chunk emitted carries m=0". -/
theorem kitty_remote_single_chunk_cex :
    kitty_remote_escapes [0, 0, 0, 0, 2, 4, 6, 8] 1 2 1 1 =
      ["\x1b_Gf=32,a=T,t=d,s=1,v=2,c=1,r=1,m=1;AAAAAAIEBgg=\x1b\\"]
    ∧ kitty_remote_flags [0, 0, 0, 0, 2, 4, 6, 8] = [1]
    ∧ (kitty_remote_flags [0, 0, 0, 0, 2, 4, 6, 8]).getLast? ≠ some 0 := by
  refine ⟨by decide, by decide, by decide⟩
